import Mathlib

/-!
Verification of the verb-quiz backend (`backend/services.py`, `backend/main.py`).

The service layer is embedded shallowly:
* the three JSON tables become association lists (`List (String × _)`),
  mirroring Python dicts whose keys are unique;
* Python exceptions become `Except String`;
* `random.sample` and `random.choice` become injected oracle functions,
  constrained only by the guarantees the Python functions provide;
* Python `round(x, 1)` (round-half-to-even) becomes rational rounding.
-/

set_option autoImplicit false

namespace Verbformen

/-- The single-quote character used inside the error messages of `services.py`. -/
def squote : String := String.singleton (Char.ofNat 39)

instance {ε α : Type} [DecidableEq ε] [DecidableEq α] : DecidableEq (Except ε α) := fun x y =>
  match x, y with
  | .ok a, .ok b =>
      if h : a = b then .isTrue (by rw [h]) else .isFalse (fun hc => h (Except.ok.inj hc))
  | .error a, .error b =>
      if h : a = b then .isTrue (by rw [h]) else .isFalse (fun hc => h (Except.error.inj hc))
  | .ok _, .error _ => .isFalse (fun hc => Except.noConfusion hc)
  | .error _, .ok _ => .isFalse (fun hc => Except.noConfusion hc)

/-- Drop leading whitespace characters from a character list. -/
def dropLeadingWs : List Char → List Char
  | [] => []
  | c :: cs => if c.isWhitespace then dropLeadingWs cs else c :: cs

/-- Python's `str.strip()` with no argument: remove leading and trailing
whitespace (restricted to ASCII whitespace, the only kind the data uses). -/
def pyStrip (s : String) : String :=
  String.mk (List.reverse (dropLeadingWs (List.reverse (dropLeadingWs s.data))))

/-- One entry of `verbs_forms.json`: the fixed triple of conjugated forms
(keys `Präsens`, `Präteritum`, `Perfekt` in the JSON). -/
structure VerbForms where
  praesens : String
  praeteritum : String
  perfekt : String
deriving Repr, DecidableEq

/-- The verb form table: a Python dict `{infinitive: forms}` as an association list. -/
abbrev VerbTable := List (String × VerbForms)

/-- Dict membership / lookup, `verbs[infinitive]` in `services.py`. -/
def lookupVerb (verbs : VerbTable) (infinitive : String) : Option VerbForms :=
  List.lookup infinitive verbs

/-- The correctness triple returned by `VerbService.check_answer`. -/
structure Correctness where
  praesens : Bool
  praeteritum : Bool
  perfekt : Bool
deriving Repr, DecidableEq

/-- The message of the `ValueError` raised in `check_answer` / `grade_session`
(`services.py` lines 170 and 211). -/
def notFoundInDatabase (infinitive : String) : String :=
  "Verb " ++ squote ++ infinitive ++ squote ++ " not found in database"

/-- `VerbService.check_answer` (`services.py` lines 144-178): looks up the verb,
then compares each submitted form, stripped of leading/trailing whitespace,
against the reference form with exact string equality. -/
def check_answer (verbs : VerbTable)
    (infinitive user_praesens user_praeteritum user_perfekt : String) :
    Except String Correctness :=
  match lookupVerb verbs infinitive with
  | none => .error (notFoundInDatabase infinitive)
  | some correct_forms =>
      .ok { praesens := pyStrip user_praesens == correct_forms.praesens,
            praeteritum := pyStrip user_praeteritum == correct_forms.praeteritum,
            perfekt := pyStrip user_perfekt == correct_forms.perfekt }

/-- One element of the `answers` list passed to `grade_session`. -/
structure AnswerInput where
  infinitive : String
  praesens : String
  praeteritum : String
  perfekt : String
deriving Repr, DecidableEq

/-- `sum(correctness.values())` in `grade_session`: the number of `True`
entries of the triple. -/
def Correctness.countTrue (c : Correctness) : Nat :=
  c.praesens.toNat + c.praeteritum.toNat + c.perfekt.toNat

/-- `all(correctness.values())` in `grade_session`. -/
def Correctness.allTrue (c : Correctness) : Bool :=
  c.praesens && c.praeteritum && c.perfekt

/-- One per-verb record of `grade_session`'s `results` list. -/
structure VerbResult where
  infinitive : String
  correct : Correctness
  user_answers : VerbForms
  correct_answers : VerbForms
  all_correct : Bool
deriving Repr, DecidableEq

/-- The dictionary returned by `grade_session`.  `score_percentage` is an
exact rational; the Python float arithmetic on these small fractions is
embedded as exact arithmetic. -/
structure SessionResult where
  total_verbs : Nat
  total_forms : Nat
  correct_count : Nat
  score_percentage : ℚ
  results : List VerbResult
deriving Repr, DecidableEq

/-- Round the real quotient `n / d` (`0 < d`) to the nearest natural,
ties to even — the semantics of Python's builtin `round` to zero decimal
places, computed from numerator and denominator. -/
def roundHalfEvenNat (n d : ℕ) : ℕ :=
  let q := n / d
  let r := n % d
  if 2 * r < d then q
  else if d < 2 * r then q + 1
  else if q % 2 = 0 then q else q + 1

/-- `round(total_correct / total_forms * 100, 1)` from `grade_session`,
computed exactly: the score in tenths of a percent
(`total_correct / total_forms * 100 * 10 = 1000 * total_correct / total_forms`). -/
def scoreTenths (total_correct total_forms : ℕ) : ℕ :=
  roundHalfEvenNat (1000 * total_correct) total_forms

/-- Round-half-to-even on an exact rational: the semantics of Python's
builtin `round` to zero decimal places, written with floor and fractional
part as the specification formula. -/
def roundHalfEvenSpec (q : ℚ) : ℤ :=
  if Int.fract q < 1/2 then ⌊q⌋
  else if 1/2 < Int.fract q then ⌊q⌋ + 1
  else if ⌊q⌋ % 2 = 0 then ⌊q⌋ else ⌊q⌋ + 1

/-- Python's `round(x, 1)` on an exact rational. -/
def pyRound1 (q : ℚ) : ℚ := (roundHalfEvenSpec (10 * q) : ℚ) / 10

/-- The loop body of `grade_session` (`services.py` lines 207-241), processing
the answers front to back: the per-verb result records and the total number
of correct forms, or the first `ValueError`. -/
def gradeAnswers (verbs : VerbTable) :
    List AnswerInput → Except String (List VerbResult × Nat)
  | [] => .ok ([], 0)
  | answer :: rest =>
    match lookupVerb verbs answer.infinitive with
    | none => .error (notFoundInDatabase answer.infinitive)
    | some correct_forms =>
      match check_answer verbs answer.infinitive
          answer.praesens answer.praeteritum answer.perfekt with
      | .error e => .error e
      | .ok correctness =>
        match gradeAnswers verbs rest with
        | .error e => .error e
        | .ok (results, total_correct) =>
          .ok ({ infinitive := answer.infinitive,
                 correct := correctness,
                 user_answers :=
                   ⟨answer.praesens, answer.praeteritum, answer.perfekt⟩,
                 correct_answers := correct_forms,
                 all_correct := correctness.allTrue } :: results,
               correctness.countTrue + total_correct)

/-- `VerbService.grade_session` (`services.py` lines 180-251). -/
def grade_session (verbs : VerbTable) (answers : List AnswerInput) :
    Except String SessionResult :=
  if answers.isEmpty then .error "No answers provided"
  else
    match gradeAnswers verbs answers with
    | .error e => .error e
    | .ok (results, total_correct) =>
      let total_forms := answers.length * 3
      .ok { total_verbs := answers.length,
            total_forms := total_forms,
            correct_count := total_correct,
            score_percentage :=
              if 0 < total_forms then
                Rat.divInt (scoreTenths total_correct total_forms) 10
              else 0,
            results := results }

/-- The forms of "gehen" from the repository's unit-test fixture
(`test_services.py`). -/
def gehenForms : VerbForms := ⟨"geht", "ging", "ist gegangen"⟩

/-- The forms of "machen" from the repository's unit-test fixture. -/
def machenForms : VerbForms := ⟨"macht", "machte", "hat gemacht"⟩

/-- A two-verb table matching the repository's unit-test fixture. -/
def sampleVerbs : VerbTable := [("gehen", gehenForms), ("machen", machenForms)]

/-- The one-verb sample answer list with two of three forms correct. -/
def sampleAnswers : List AnswerInput := [⟨"gehen", "geht", "wrong", "ist gegangen"⟩]

/-- The graded result of the sample one-verb session. -/
def sampleGraded : SessionResult :=
  { total_verbs := 1, total_forms := 3, correct_count := 2,
    score_percentage := Rat.divInt 667 10,
    results := [{ infinitive := "gehen",
                  correct := ⟨true, false, true⟩,
                  user_answers := ⟨"geht", "wrong", "ist gegangen"⟩,
                  correct_answers := gehenForms,
                  all_correct := false }] }

/-- `VerbService.get_random_verbs` (`services.py` lines 120-142):
`random.sample(list(verbs.keys()), count)` guarded by the population check.
`sample` is an injected oracle standing for Python's `random.sample`. -/
def get_random_verbs (verbs : VerbTable) (sample : List String → ℕ → List String)
    (count : ℕ) : Except String (List String) :=
  let available_verbs := verbs.map Prod.fst
  if available_verbs.length < count then
    .error ("Not enough verbs in database. Requested " ++ toString count ++
      ", but only " ++ toString available_verbs.length ++ " available")
  else .ok (sample available_verbs count)

/-- What Python's `random.sample(population, k)` guarantees whenever
`k ≤ len(population)`: `k` elements drawn without replacement, i.e. a
permutation of a sublist of the population. -/
def SampleSpec (sample : List String → ℕ → List String) : Prop :=
  ∀ population k, k ≤ population.length →
    (sample population k).length = k ∧ (sample population k).Subperm population

/-- The `VerbInfo` Pydantic model (`models.py` lines 6-14); `translations`
defaults to `[]` and the example sentence to `""`. -/
structure VerbInfo where
  infinitive : String
  index : ℕ
  translations : List String
  exampleSentence : String
deriving Repr, DecidableEq

/-- The `SessionStart` Pydantic model (`models.py` lines 17-22). -/
structure SessionStart where
  session_id : String
  verbs : List VerbInfo
  total_verbs : ℕ
deriving Repr, DecidableEq

/-- The comprehension body in `start_session`:
`VerbInfo(infinitive=infinitive, index=idx)` with the model defaults for the
remaining fields. -/
def toVerbInfo (p : ℕ × String) : VerbInfo :=
  { infinitive := p.2, index := p.1, translations := [], exampleSentence := "" }

/-- `start_session` (`main.py` lines 57-87): draws `count` random infinitives
and wraps each with its zero-based position via `enumerate`.  It constructs
`VerbInfo(infinitive=infinitive, index=idx)` only, so the `translations` and
example fields keep their Pydantic defaults `[]` and `""`. -/
def start_session (verbs : VerbTable) (sample : List String → ℕ → List String)
    (session_id : String) (count : ℕ) : Except String SessionStart :=
  match get_random_verbs verbs sample count with
  | .error e => .error e
  | .ok infinitives =>
    let vlist := infinitives.enum.map toVerbInfo
    .ok { session_id := session_id, verbs := vlist, total_verbs := vlist.length }

/-- A translations or examples table: a Python dict mapping infinitives to
lists of strings. -/
abbrev HintTable := List (String × List String)

/-- The message of the `ValueError` at `services.py` line 110. -/
def notFoundInTranslations (infinitive : String) : String :=
  "Verb " ++ squote ++ infinitive ++ squote ++ " not found in translations"

/-- The message of the `ValueError` at `services.py` line 113. -/
def notFoundInExamples (infinitive : String) : String :=
  "Verb " ++ squote ++ infinitive ++ squote ++ " not found in examples"

/-- The dictionary returned by `get_verb_hints`. -/
structure Hints where
  translations : List String
  exampleSentence : String
deriving Repr, DecidableEq

/-- `VerbService.get_verb_hints` (`services.py` lines 91-118): check the
translation table, then the example table, then return the translation list
and one example chosen by `choice`, the injected oracle standing for
`random.choice`. -/
def get_verb_hints (translations examples : HintTable)
    (choice : List String → String) (infinitive : String) : Except String Hints :=
  match List.lookup infinitive translations with
  | none => .error (notFoundInTranslations infinitive)
  | some tr =>
    match List.lookup infinitive examples with
    | none => .error (notFoundInExamples infinitive)
    | some exs => .ok { translations := tr, exampleSentence := choice exs }

/-- The part of `VerbService`'s state that `load_verbs` touches: the
configured `data_path`, the file system's content at that path (`none` when
the file does not exist), the `_verbs` cache, and a counter of file reads
performed so far. -/
structure FormsStore where
  data_path : String
  file : Option VerbTable
  verbs_cache : Option VerbTable
  reads : ℕ
deriving Repr, DecidableEq

/-- `VerbService.load_verbs` (`services.py` lines 23-41) as a state
transition: if `_verbs` is already populated it is returned unchanged;
otherwise a missing file raises `FileNotFoundError` naming the path, and an
existing file is read (incrementing `reads`) and cached. -/
def load_verbs (s : FormsStore) : Except String (VerbTable × FormsStore) :=
  match s.verbs_cache with
  | some v => .ok (v, s)
  | none =>
    match s.file with
    | none => .error ("Verb data file not found: " ++ s.data_path)
    | some v => .ok (v, { s with verbs_cache := some v, reads := s.reads + 1 })

/-- A deterministic sampler satisfying `SampleSpec`, used for concrete
checks: take the first `k` keys. -/
def takeSample : List String → ℕ → List String := fun population k => population.take k

/-- A deterministic chooser standing for `random.choice` in concrete checks. -/
def headChoice : List String → String := fun l => l.headD ""

/-- A translations table missing "gehen", for the hint error scenario. -/
def demoTranslations : HintTable := [("machen", ["делать"])]

/-- An examples table containing "gehen". -/
def demoExamples : HintTable := [("gehen", ["Er geht zur Schule."])]

/-- C1: for every infinitive present in the verb form set and every triple of
submitted strings, `check_answer` succeeds and judges each of the three forms
correct exactly when the submitted string, stripped of leading and trailing
whitespace only, is string-equal (case-sensitively) to the reference form. -/
theorem check_answer_exact_match (verbs : VerbTable) (infinitive : String)
    (cf : VerbForms) (p t pf : String)
    (h : lookupVerb verbs infinitive = some cf) :
    ∃ r : Correctness,
      check_answer verbs infinitive p t pf = .ok r ∧
      (r.praesens = true ↔ pyStrip p = cf.praesens) ∧
      (r.praeteritum = true ↔ pyStrip t = cf.praeteritum) ∧
      (r.perfekt = true ↔ pyStrip pf = cf.perfekt) := by
  refine ⟨⟨pyStrip p == cf.praesens, pyStrip t == cf.praeteritum, pyStrip pf == cf.perfekt⟩,
    ?_, beq_iff_eq, beq_iff_eq, beq_iff_eq⟩
  unfold check_answer
  rw [h]

/-- C1 witness: on the table `{"gehen": {"geht","ging","ist gegangen"}}`,
`" geht "` is judged correct while `"Geht"` is not. -/
theorem check_answer_exact_match_witness :
    (lookupVerb [("gehen", VerbForms.mk "geht" "ging" "ist gegangen")] "gehen"
        = some (VerbForms.mk "geht" "ging" "ist gegangen")) ∧
    (∃ r : Correctness,
      check_answer [("gehen", VerbForms.mk "geht" "ging" "ist gegangen")]
          "gehen" " geht " "ging" "ist gegangen" = .ok r ∧
      (r.praesens = true ↔ pyStrip " geht " = "geht") ∧
      (r.praeteritum = true ↔ pyStrip "ging" = "ging") ∧
      (r.perfekt = true ↔ pyStrip "ist gegangen" = "ist gegangen")) ∧
    check_answer [("gehen", VerbForms.mk "geht" "ging" "ist gegangen")]
        "gehen" " geht " "ging" "ist gegangen"
      = .ok (Correctness.mk true true true) ∧
    check_answer [("gehen", VerbForms.mk "geht" "ging" "ist gegangen")]
        "gehen" "Geht" "ging" "ist gegangen"
      = .ok (Correctness.mk false true true) :=
  ⟨by decide,
   check_answer_exact_match _ "gehen" (VerbForms.mk "geht" "ging" "ist gegangen")
     " geht " "ging" "ist gegangen" (by decide),
   by rfl, by rfl⟩

theorem roundHalfEvenNat_eq_spec (n d : ℕ) (hd : 0 < d) :
    (roundHalfEvenNat n d : ℤ) = roundHalfEvenSpec ((n : ℚ) / d) := by
  have hdq : (0 : ℚ) < d := by exact_mod_cast hd
  have hfloor : ⌊(n : ℚ) / d⌋ = ((n / d : ℕ) : ℤ) := by
    have h1 := Rat.floor_intCast_div_natCast (n : ℤ) d
    rw [Int.cast_natCast] at h1
    rw [h1]
    exact (Int.natCast_div n d).symm
  have hfract : Int.fract ((n : ℚ) / d) = ((n % d : ℕ) : ℚ) / d := by
    exact_mod_cast Int.fract_div_natCast_eq_div_natCast_mod
  have hlt : (Int.fract ((n : ℚ) / d) < 1/2) ↔ 2 * (n % d) < d := by
    rw [hfract, div_lt_div_iff₀ hdq (by norm_num : (0:ℚ) < 2)]
    norm_cast
    omega
  have hgt : (1/2 < Int.fract ((n : ℚ) / d)) ↔ d < 2 * (n % d) := by
    rw [hfract, div_lt_div_iff₀ (by norm_num : (0:ℚ) < 2) hdq]
    norm_cast
    omega
  have hmod : (((n / d : ℕ) : ℤ) % 2 = 0) ↔ (n / d) % 2 = 0 := by omega
  unfold roundHalfEvenNat roundHalfEvenSpec
  simp only [hfloor, hlt, hgt, hmod]
  split
  · push_cast; ring
  · split
    · push_cast; ring
    · split <;> push_cast <;> ring

theorem roundHalfEvenNat_le (n d m : ℕ) (hd : 0 < d) (h : n ≤ d * m) :
    roundHalfEvenNat n d ≤ m := by
  have hq : n / d ≤ m := by
    calc n / d ≤ d * m / d := Nat.div_le_div_right h
    _ = m := Nat.mul_div_cancel_left m hd
  have hsplit : n % d = 0 ∨ n / d + 1 ≤ m := by
    rcases Nat.eq_zero_or_pos (n % d) with h0 | hpos
    · exact Or.inl h0
    · refine Or.inr ?_
      have h1 : d * (n / d) + 1 ≤ d * (n / d) + n % d := Nat.add_le_add_left hpos _
      have h2 : d * (n / d) + n % d = n := Nat.div_add_mod n d
      have h3 : d * (n / d) < d * m := lt_of_lt_of_le (by omega) h
      exact Nat.lt_of_mul_lt_mul_left h3
  unfold roundHalfEvenNat
  dsimp only
  split
  · exact hq
  · have hpos : 0 < n % d := by omega
    split
    · omega
    · split
      · exact hq
      · omega

theorem Correctness.countTrue_le_three (c : Correctness) : c.countTrue ≤ 3 := by
  rcases c with ⟨p, t, pf⟩
  cases p <;> cases t <;> cases pf <;> decide

/-- If every submitted infinitive is a key of the table, the grading loop
succeeds. -/
theorem gradeAnswers_ok (verbs : VerbTable) (answers : List AnswerInput)
    (hall : ∀ a ∈ answers, (lookupVerb verbs a.infinitive).isSome = true) :
    ∃ rs tc, gradeAnswers verbs answers = .ok (rs, tc) := by
  induction answers with
  | nil => exact ⟨[], 0, rfl⟩
  | cons a rest ih =>
    obtain ⟨cf, hcf⟩ := Option.isSome_iff_exists.mp (hall a (List.mem_cons_self a rest))
    obtain ⟨rs, tc, hrec⟩ := ih (fun x hx => hall x (List.mem_cons_of_mem a hx))
    simp only [gradeAnswers, check_answer, hcf, hrec]
    exact ⟨_, _, rfl⟩

/-- Structural facts about a successful grading loop: one record per answer
in order, the echoed user answers, the `all_correct` flag, and the bound on
the number of correct forms. -/
theorem gradeAnswers_spec (verbs : VerbTable) (answers : List AnswerInput)
    (rs : List VerbResult) (tc : ℕ)
    (h : gradeAnswers verbs answers = .ok (rs, tc)) :
    rs.length = answers.length ∧ tc ≤ 3 * answers.length ∧
    (∀ i (hi : i < rs.length) (hi' : i < answers.length),
      (rs.get ⟨i, hi⟩).infinitive = (answers.get ⟨i, hi'⟩).infinitive ∧
      (rs.get ⟨i, hi⟩).user_answers = ⟨(answers.get ⟨i, hi'⟩).praesens,
        (answers.get ⟨i, hi'⟩).praeteritum, (answers.get ⟨i, hi'⟩).perfekt⟩ ∧
      (rs.get ⟨i, hi⟩).all_correct = ((rs.get ⟨i, hi⟩).correct.praesens &&
        ((rs.get ⟨i, hi⟩).correct.praeteritum && (rs.get ⟨i, hi⟩).correct.perfekt))) := by
  induction answers generalizing rs tc with
  | nil =>
    simp only [gradeAnswers] at h
    obtain ⟨h1, h2⟩ := Prod.mk.injEq .. |>.mp (Except.ok.inj h)
    subst h1; subst h2
    refine ⟨rfl, by omega, ?_⟩
    intro i hi
    exact absurd hi (by simp)
  | cons a rest ih =>
    cases hcf : lookupVerb verbs a.infinitive with
    | none => simp [gradeAnswers, hcf] at h
    | some cf =>
      simp only [gradeAnswers, check_answer, hcf] at h
      cases hrec : gradeAnswers verbs rest with
      | error e => rw [hrec] at h; exact absurd h (by simp)
      | ok p =>
        obtain ⟨rs', tc'⟩ := p
        rw [hrec] at h
        obtain ⟨hrs, htc⟩ := Prod.mk.injEq .. |>.mp (Except.ok.inj h)
        subst hrs; subst htc
        obtain ⟨hlen, hle, hpt⟩ := ih rs' tc' hrec
        refine ⟨by simp [hlen], ?_, ?_⟩
        · have hc3 := Correctness.countTrue_le_three
            ⟨pyStrip a.praesens == cf.praesens, pyStrip a.praeteritum == cf.praeteritum,
             pyStrip a.perfekt == cf.perfekt⟩
          simp only [List.length_cons]
          omega
        · intro i hi hi'
          match i with
          | 0 =>
            refine ⟨rfl, rfl, ?_⟩
            simp [Correctness.allTrue, Bool.and_assoc]
          | Nat.succ j =>
            exact hpt j (by simpa using hi) (by simpa using hi')

theorem scoreTenths_eq_pyRound1 (c t : ℕ) (ht : 0 < t) :
    (Rat.divInt (scoreTenths c t) 10 : ℚ) = pyRound1 (100 * (c : ℚ) / t) := by
  have h1 : (10 : ℚ) * (100 * (c : ℚ) / t) = ((1000 * c : ℕ) : ℚ) / t := by
    push_cast
    ring
  unfold pyRound1 scoreTenths
  rw [h1, ← roundHalfEvenNat_eq_spec (1000 * c) t ht, Rat.divInt_eq_div]
  norm_cast

/-- Inversion of a successful `grade_session` call. -/
theorem grade_session_ok_inv (verbs : VerbTable) (answers : List AnswerInput)
    (res : SessionResult) (h : grade_session verbs answers = .ok res) :
    answers ≠ [] ∧ ∃ rs tc, gradeAnswers verbs answers = .ok (rs, tc) ∧
      res = { total_verbs := answers.length, total_forms := answers.length * 3,
              correct_count := tc,
              score_percentage := if 0 < answers.length * 3 then
                  Rat.divInt (scoreTenths tc (answers.length * 3)) 10 else 0,
              results := rs } := by
  unfold grade_session at h
  cases hemp : answers.isEmpty with
  | true => rw [hemp] at h; simp at h
  | false =>
    rw [hemp] at h
    rw [if_neg Bool.false_ne_true] at h
    refine ⟨fun hnil => by rw [hnil] at hemp; simp at hemp, ?_⟩
    cases hga : gradeAnswers verbs answers with
    | error e => rw [hga] at h; exact absurd h (by simp)
    | ok p =>
      obtain ⟨rs, tc⟩ := p
      rw [hga] at h
      exact ⟨rs, tc, rfl, (Except.ok.inj h).symm⟩

/-- Packaging of a successful `grade_session` call from a successful loop. -/
theorem grade_session_ok_intro (verbs : VerbTable) (answers : List AnswerInput)
    (rs : List VerbResult) (tc : ℕ) (hne : answers ≠ [])
    (hga : gradeAnswers verbs answers = .ok (rs, tc)) :
    grade_session verbs answers =
      .ok { total_verbs := answers.length, total_forms := answers.length * 3,
            correct_count := tc,
            score_percentage := if 0 < answers.length * 3 then
                Rat.divInt (scoreTenths tc (answers.length * 3)) 10 else 0,
            results := rs } := by
  have hemp : answers.isEmpty = false := by
    cases answers with
    | nil => exact absurd rfl hne
    | cons a rest => rfl
  unfold grade_session
  rw [hemp, if_neg Bool.false_ne_true, hga]

/-- C2: for every non-empty answers list whose infinitives are all present
in the verb form set, `grade_session` succeeds, `total_forms` is three times
the number of answers, and `score_percentage` equals
`round(100 × correct_count / total_forms, 1)` (ties to even, Python `round`),
the percentage being 0 when `total_forms` is 0. -/
theorem grade_session_score_formula (verbs : VerbTable) (answers : List AnswerInput)
    (hne : answers ≠ [])
    (hall : ∀ a ∈ answers, (lookupVerb verbs a.infinitive).isSome = true) :
    ∃ res : SessionResult,
      grade_session verbs answers = .ok res ∧
      res.total_forms = 3 * answers.length ∧
      res.score_percentage =
        (if 0 < res.total_forms then
          pyRound1 (100 * (res.correct_count : ℚ) / res.total_forms) else 0) := by
  obtain ⟨rs, tc, hga⟩ := gradeAnswers_ok verbs answers hall
  have hlen : 0 < answers.length := List.length_pos.mpr hne
  have ht : 0 < answers.length * 3 := by omega
  refine ⟨_, grade_session_ok_intro verbs answers rs tc hne hga, by dsimp; omega, ?_⟩
  dsimp
  rw [if_pos ht, if_pos ht]
  exact scoreTenths_eq_pyRound1 tc (answers.length * 3) ht

/-- C2 witness: a one-verb session with exactly two of three forms correct
scores 66.7 percent over 3 total forms. -/
theorem grade_session_score_formula_witness :
    (([⟨"gehen", "geht", "wrong", "ist gegangen"⟩] : List AnswerInput) ≠ []) ∧
    (∀ a ∈ ([⟨"gehen", "geht", "wrong", "ist gegangen"⟩] : List AnswerInput),
      (lookupVerb sampleVerbs a.infinitive).isSome = true) ∧
    (∃ res : SessionResult,
      grade_session sampleVerbs [⟨"gehen", "geht", "wrong", "ist gegangen"⟩] = .ok res ∧
      res.total_forms = 3 * ([⟨"gehen", "geht", "wrong", "ist gegangen"⟩] :
        List AnswerInput).length ∧
      res.score_percentage =
        (if 0 < res.total_forms then
          pyRound1 (100 * (res.correct_count : ℚ) / res.total_forms) else 0)) ∧
    (grade_session sampleVerbs [⟨"gehen", "geht", "wrong", "ist gegangen"⟩]).toOption.map
        SessionResult.score_percentage = some (Rat.divInt 667 10) ∧
    (grade_session sampleVerbs [⟨"gehen", "geht", "wrong", "ist gegangen"⟩]).toOption.map
        SessionResult.correct_count = some 2 ∧
    (grade_session sampleVerbs [⟨"gehen", "geht", "wrong", "ist gegangen"⟩]).toOption.map
        SessionResult.total_forms = some 3 :=
  ⟨by decide, by decide,
   grade_session_score_formula sampleVerbs [⟨"gehen", "geht", "wrong", "ist gegangen"⟩]
     (by decide) (by decide),
   by decide, by decide, by decide⟩

/-- C9: every successful `grade_session` result has `correct_count` between 0
and `total_forms`, a score percentage in the closed interval [0, 100], and
exactly one result record per answer, in input order. -/
theorem grade_session_invariants (verbs : VerbTable) (answers : List AnswerInput)
    (res : SessionResult) (h : grade_session verbs answers = .ok res) :
    res.correct_count ≤ res.total_forms ∧
    0 ≤ res.score_percentage ∧ res.score_percentage ≤ 100 ∧
    res.results.length = answers.length ∧
    (∀ i (hi : i < res.results.length) (hi' : i < answers.length),
      (res.results.get ⟨i, hi⟩).infinitive = (answers.get ⟨i, hi'⟩).infinitive) := by
  obtain ⟨hne, rs, tc, hga, hres⟩ := grade_session_ok_inv verbs answers res h
  obtain ⟨hlen, hle, hpt⟩ := gradeAnswers_spec verbs answers rs tc hga
  have hlp : 0 < answers.length := List.length_pos.mpr hne
  have ht : 0 < answers.length * 3 := by omega
  have htenths : scoreTenths tc (answers.length * 3) ≤ 1000 := by
    refine roundHalfEvenNat_le _ _ _ ht ?_
    have : tc ≤ answers.length * 3 := by omega
    calc 1000 * tc ≤ 1000 * (answers.length * 3) := Nat.mul_le_mul_left 1000 this
    _ = answers.length * 3 * 1000 := by ring
  have hscore : (0 : ℚ) ≤ Rat.divInt (scoreTenths tc (answers.length * 3)) 10 ∧
      Rat.divInt (scoreTenths tc (answers.length * 3)) 10 ≤ 100 := by
    rw [Rat.divInt_eq_div]
    have h10 : ((10 : ℤ) : ℚ) = 10 := by norm_num
    rw [h10]
    constructor
    · positivity
    · rw [div_le_iff₀ (by norm_num : (0:ℚ) < 10)]
      have hc : ((scoreTenths tc (answers.length * 3) : ℤ) : ℚ) ≤ 1000 := by
        exact_mod_cast htenths
      linarith
  subst hres
  dsimp at hpt ⊢
  rw [if_pos ht]
  exact ⟨by omega, hscore.1, hscore.2, hlen, fun i hi hi' => (hpt i hi hi').1⟩

/-- C9 witness: the invariants at a concrete graded one-verb session. -/
theorem grade_session_invariants_witness :
    (grade_session sampleVerbs sampleAnswers = .ok sampleGraded) ∧
    (sampleGraded.correct_count ≤ sampleGraded.total_forms ∧
      0 ≤ sampleGraded.score_percentage ∧ sampleGraded.score_percentage ≤ 100 ∧
      sampleGraded.results.length = sampleAnswers.length ∧
      (∀ i (hi : i < sampleGraded.results.length) (hi' : i < sampleAnswers.length),
        (sampleGraded.results.get ⟨i, hi⟩).infinitive =
          (sampleAnswers.get ⟨i, hi'⟩).infinitive)) :=
  ⟨by decide,
   grade_session_invariants sampleVerbs sampleAnswers sampleGraded (by decide)⟩

/-- A failing grading loop always fails on a missing infinitive, with the
message naming it. -/
theorem gradeAnswers_error (verbs : VerbTable) (answers : List AnswerInput)
    (e : String) (h : gradeAnswers verbs answers = .error e) :
    ∃ a ∈ answers, lookupVerb verbs a.infinitive = none ∧
      e = notFoundInDatabase a.infinitive := by
  induction answers with
  | nil => simp [gradeAnswers] at h
  | cons a rest ih =>
    cases hcf : lookupVerb verbs a.infinitive with
    | none =>
      simp only [gradeAnswers, hcf] at h
      exact ⟨a, List.mem_cons_self a rest, hcf, (Except.error.inj h).symm⟩
    | some cf =>
      simp only [gradeAnswers, check_answer, hcf] at h
      cases hrec : gradeAnswers verbs rest with
      | error e2 =>
        rw [hrec] at h
        obtain ⟨b, hmem, hb, he⟩ := ih (h := by rw [hrec, Except.error.inj h])
        exact ⟨b, List.mem_cons_of_mem a hmem, hb, he⟩
      | ok p =>
        obtain ⟨rs, tc⟩ := p
        rw [hrec] at h
        exact absurd h (by simp)

/-- A successful grading loop implies every infinitive was found. -/
theorem gradeAnswers_ok_all (verbs : VerbTable) (answers : List AnswerInput)
    (rs : List VerbResult) (tc : ℕ) (h : gradeAnswers verbs answers = .ok (rs, tc)) :
    ∀ a ∈ answers, (lookupVerb verbs a.infinitive).isSome = true := by
  induction answers generalizing rs tc with
  | nil => intro a ha; exact absurd ha (by simp)
  | cons a rest ih =>
    intro b hb
    cases hcf : lookupVerb verbs a.infinitive with
    | none => simp [gradeAnswers, hcf] at h
    | some cf =>
      simp only [gradeAnswers, check_answer, hcf] at h
      cases hrec : gradeAnswers verbs rest with
      | error e => rw [hrec] at h; exact absurd h (by simp)
      | ok p =>
        obtain ⟨rs2, tc2⟩ := p
        rcases List.mem_cons.mp hb with hba | hbr
        · subst hba; simp [hcf]
        · exact ih rs2 tc2 hrec b hbr

/-- C5: `grade_session` fails exactly when the answers list is empty or some
infinitive is absent from the verb form set; an empty list yields the
message "No answers provided"; a missing infinitive yields an error naming
it, with no partial result returned. -/
theorem grade_session_error_conditions (verbs : VerbTable)
    (answers : List AnswerInput) :
    ((∃ e, grade_session verbs answers = .error e) ↔
      (answers = [] ∨ ∃ a ∈ answers, lookupVerb verbs a.infinitive = none)) ∧
    (answers = [] → grade_session verbs answers = .error "No answers provided") ∧
    (∀ e, grade_session verbs answers = .error e →
      e = "No answers provided" ∨
      ∃ a ∈ answers, lookupVerb verbs a.infinitive = none ∧
        e = notFoundInDatabase a.infinitive) := by
  have hempty : answers = [] → grade_session verbs answers = .error "No answers provided" := by
    intro h; subst h; rfl
  refine ⟨⟨?_, ?_⟩, hempty, ?_⟩
  · rintro ⟨e, he⟩
    cases answers with
    | nil => exact Or.inl rfl
    | cons a rest =>
      refine Or.inr ?_
      unfold grade_session at he
      simp only [List.isEmpty_cons] at he
      rw [if_neg Bool.false_ne_true] at he
      cases hga : gradeAnswers verbs (a :: rest) with
      | error e2 =>
        obtain ⟨b, hmem, hb, _⟩ := gradeAnswers_error verbs (a :: rest) e2 hga
        exact ⟨b, hmem, hb⟩
      | ok p => rw [hga] at he; exact absurd he (by simp)
  · rintro (hnil | ⟨a, hmem, ha⟩)
    · exact ⟨_, hempty hnil⟩
    · cases hv : grade_session verbs answers with
      | error e => exact ⟨e, rfl⟩
      | ok res =>
        obtain ⟨_, rs, tc, hga, _⟩ := grade_session_ok_inv verbs answers res hv
        have := gradeAnswers_ok_all verbs answers rs tc hga a hmem
        rw [ha] at this
        exact absurd this (by simp)
  · intro e he
    cases answers with
    | nil => exact Or.inl (Except.error.inj (hempty rfl ▸ he)).symm
    | cons a rest =>
      refine Or.inr ?_
      unfold grade_session at he
      simp only [List.isEmpty_cons] at he
      rw [if_neg Bool.false_ne_true] at he
      cases hga : gradeAnswers verbs (a :: rest) with
      | error e2 =>
        rw [hga] at he
        exact Except.error.inj he ▸ gradeAnswers_error verbs (a :: rest) e2 hga
      | ok p => obtain ⟨rs, tc⟩ := p; rw [hga] at he; exact absurd he (by simp)

/-- C5 witness: the two failure modes at concrete inputs. -/
theorem grade_session_error_conditions_witness :
    (grade_session sampleVerbs ([] : List AnswerInput) =
      .error "No answers provided") ∧
    (∃ e, grade_session sampleVerbs [⟨"nonexistent", "a", "b", "c"⟩] = .error e) ∧
    (grade_session sampleVerbs [⟨"nonexistent", "a", "b", "c"⟩] =
      .error (notFoundInDatabase "nonexistent")) :=
  ⟨(grade_session_error_conditions sampleVerbs []).2.1 rfl,
   (grade_session_error_conditions sampleVerbs
       [⟨"nonexistent", "a", "b", "c"⟩]).1.mpr
     (Or.inr ⟨⟨"nonexistent", "a", "b", "c"⟩, by decide, by decide⟩),
   by decide⟩

/-- C6: whenever `count` exceeds the number of verbs in the table,
`start_session` fails with a message stating both the requested and the
available counts. -/
theorem start_session_count_exceeds (verbs : VerbTable)
    (sample : List String → ℕ → List String) (sid : String) (count : ℕ)
    (h : verbs.length < count) :
    start_session verbs sample sid count =
      .error ("Not enough verbs in database. Requested " ++ toString count ++
        ", but only " ++ toString verbs.length ++ " available") := by
  have hlt : (verbs.map Prod.fst).length < count := by
    rw [List.length_map]; exact h
  simp only [start_session, get_random_verbs, List.length_map, if_pos h]

/-- C6 witness: requesting 5 verbs from a 2-verb table. -/
theorem start_session_count_exceeds_witness :
    (sampleVerbs.length < 5) ∧
    (start_session sampleVerbs takeSample "sid" 5 =
      .error ("Not enough verbs in database. Requested " ++ toString 5 ++
        ", but only " ++ toString sampleVerbs.length ++ " available")) ∧
    (start_session sampleVerbs takeSample "sid" 5 =
      .error "Not enough verbs in database. Requested 5, but only 2 available") :=
  ⟨by decide,
   start_session_count_exceeds sampleVerbs takeSample "sid" 5 (by decide),
   by decide⟩

theorem subperm_nodup {α : Type} {l1 l2 : List α} (h : l1.Subperm l2)
    (h2 : l2.Nodup) : l1.Nodup := by
  obtain ⟨l, hp, hs⟩ := h
  exact hp.nodup_iff.mp (h2.sublist hs)

/-- C4: for `count` at most the population size (and a sampler with
`random.sample`'s guarantees over the no-duplicate dict keys),
`start_session` succeeds with exactly `count` entries, indices `0..count-1`
in order, and pairwise distinct infinitives drawn from the table's keys. -/
theorem start_session_success (verbs : VerbTable)
    (sample : List String → ℕ → List String) (sid : String) (count : ℕ)
    (hkeys : (verbs.map Prod.fst).Nodup) (hsample : SampleSpec sample)
    (hcount : count ≤ verbs.length) :
    ∃ s : SessionStart, start_session verbs sample sid count = .ok s ∧
      s.verbs.length = count ∧
      (∀ i (hi : i < s.verbs.length), (s.verbs.get ⟨i, hi⟩).index = i) ∧
      (s.verbs.map VerbInfo.infinitive).Nodup ∧
      (∀ v ∈ s.verbs, v.infinitive ∈ verbs.map Prod.fst) := by
  have hnlt : ¬ ((verbs.map Prod.fst).length < count) := by
    rw [List.length_map]; omega
  obtain ⟨hlen, hsub⟩ := hsample (verbs.map Prod.fst) count
    (by rw [List.length_map]; exact hcount)
  have hmap : ((sample (verbs.map Prod.fst) count).enum.map toVerbInfo).map
      VerbInfo.infinitive = sample (verbs.map Prod.fst) count := by
    rw [List.map_map]
    have hc : (VerbInfo.infinitive ∘ toVerbInfo) = Prod.snd := rfl
    rw [hc, List.enum_map_snd]
  refine ⟨{ session_id := sid,
            verbs := (sample (verbs.map Prod.fst) count).enum.map toVerbInfo,
            total_verbs :=
              ((sample (verbs.map Prod.fst) count).enum.map toVerbInfo).length },
    ?_, ?_, ?_, ?_, ?_⟩
  · simp only [start_session, get_random_verbs, if_neg hnlt]
  · dsimp only
    rw [List.length_map, List.enum_length, hlen]
  · intro i hi
    dsimp only at hi ⊢
    have hi2 : i < (sample (verbs.map Prod.fst) count).enum.length := by
      rw [List.length_map] at hi; exact hi
    rw [List.get_map]
    rw [List.get_enum]
    simp [toVerbInfo]
  · dsimp only
    rw [hmap]
    exact subperm_nodup hsub hkeys
  · intro v hv
    dsimp only at hv
    have : v.infinitive ∈ ((sample (verbs.map Prod.fst) count).enum.map
        toVerbInfo).map VerbInfo.infinitive := List.mem_map_of_mem _ hv
    rw [hmap] at this
    exact hsub.subset this

/-- C4 witness: a one-verb session drawn from the two-verb sample table. -/
theorem start_session_success_witness :
    (sampleVerbs.map Prod.fst).Nodup ∧ (1 ≤ sampleVerbs.length) ∧
    (∃ s : SessionStart, start_session sampleVerbs takeSample "sid" 1 = .ok s ∧
      s.verbs.length = 1 ∧
      (∀ i (hi : i < s.verbs.length), (s.verbs.get ⟨i, hi⟩).index = i) ∧
      (s.verbs.map VerbInfo.infinitive).Nodup ∧
      (∀ v ∈ s.verbs, v.infinitive ∈ sampleVerbs.map Prod.fst)) :=
  ⟨by decide, by decide,
   start_session_success sampleVerbs takeSample "sid" 1 (by decide)
     (fun population k hk =>
       ⟨by rw [takeSample, List.length_take]; omega,
        (List.take_sublist k population).subperm⟩)
     (by decide)⟩

/-- C3 (the code's actual behavior): every verb entry returned by
`start_session` carries the Pydantic defaults — empty translations and empty
example — because `main.py` never calls `get_verb_hints` when composing a
session. -/
theorem start_session_no_hints (verbs : VerbTable)
    (sample : List String → ℕ → List String) (sid : String) (count : ℕ)
    (s : SessionStart) (h : start_session verbs sample sid count = .ok s) :
    ∀ v ∈ s.verbs, v.translations = [] ∧ v.exampleSentence = "" := by
  unfold start_session at h
  cases hg : get_random_verbs verbs sample count with
  | error e => rw [hg] at h; exact absurd h (by simp)
  | ok infs =>
    rw [hg] at h
    have hs : s = _ := (Except.ok.inj h).symm
    rw [hs]
    intro v hv
    dsimp only at hv
    obtain ⟨p, _, hp⟩ := List.mem_map.mp hv
    rw [← hp]
    exact ⟨rfl, rfl⟩

/-- C3 witness: the concrete one-verb session start carries no hints. -/
theorem start_session_no_hints_witness :
    (start_session sampleVerbs takeSample "sid" 1 =
      .ok { session_id := "sid",
            verbs := [{ infinitive := "gehen", index := 0,
                        translations := [], exampleSentence := "" }],
            total_verbs := 1 }) ∧
    (∀ v ∈ ({ session_id := "sid",
              verbs := [{ infinitive := "gehen", index := 0,
                          translations := [], exampleSentence := "" }],
              total_verbs := 1 } : SessionStart).verbs,
      v.translations = [] ∧ v.exampleSentence = "") :=
  ⟨by decide,
   start_session_no_hints sampleVerbs takeSample "sid" 1
     { session_id := "sid",
       verbs := [{ infinitive := "gehen", index := 0,
                   translations := [], exampleSentence := "" }],
       total_verbs := 1 } (by decide)⟩

theorem string_append_left_cancel {a b c : String} (h : a ++ b = a ++ c) :
    b = c := by
  have hdata : ∀ x y : String, (x ++ y).data = x.data ++ y.data :=
    fun ⟨_⟩ ⟨_⟩ => rfl
  have hd : a.data ++ b.data = a.data ++ c.data := by
    rw [← hdata, ← hdata, h]
  have hbc : b.data = c.data := List.append_cancel_left hd
  exact congrArg String.mk hbc

/-- C7: `get_verb_hints` fails with the "not found in translations" message
when the infinitive is absent from the translation table, independently
fails with the distinct "not found in examples" message when absent from the
example table, and otherwise returns the translation list together with one
sentence chosen from the verb's example list. -/
theorem get_verb_hints_spec (translations examples : HintTable)
    (choice : List String → String) (infinitive : String) :
    (List.lookup infinitive translations = none →
      get_verb_hints translations examples choice infinitive =
        .error (notFoundInTranslations infinitive)) ∧
    (∀ tr, List.lookup infinitive translations = some tr →
      List.lookup infinitive examples = none →
      get_verb_hints translations examples choice infinitive =
        .error (notFoundInExamples infinitive)) ∧
    (∀ tr exs, List.lookup infinitive translations = some tr →
      List.lookup infinitive examples = some exs →
      get_verb_hints translations examples choice infinitive =
        .ok { translations := tr, exampleSentence := choice exs } ∧
      ((∀ l : List String, l ≠ [] → choice l ∈ l) → exs ≠ [] →
        choice exs ∈ exs)) ∧
    notFoundInTranslations infinitive ≠ notFoundInExamples infinitive := by
  refine ⟨?_, ?_, ?_, ?_⟩
  · intro ht
    simp only [get_verb_hints, ht]
  · intro tr ht he
    simp only [get_verb_hints, ht, he]
  · intro tr exs ht he
    refine ⟨by simp only [get_verb_hints, ht, he], fun hch hne => hch exs hne⟩
  · intro h
    have hsuffix := string_append_left_cancel h
    exact absurd hsuffix (by decide)

/-- C7 witness: "gehen" absent from the translation table raises the
"not found in translations" error, distinct from the examples error. -/
theorem get_verb_hints_spec_witness :
    (List.lookup "gehen" demoTranslations = none) ∧
    (get_verb_hints demoTranslations demoExamples headChoice "gehen" =
      .error (notFoundInTranslations "gehen")) ∧
    (notFoundInTranslations "gehen" ≠ notFoundInExamples "gehen") :=
  ⟨by decide,
   (get_verb_hints_spec demoTranslations demoExamples headChoice "gehen").1
     (by decide),
   (get_verb_hints_spec demoTranslations demoExamples headChoice "gehen").2.2.2⟩

/-- C8: `load_verbs` reads the file only on the first call — failing with an
error naming the missing path when the file is absent — and any later call
returns the very same cached table with no further read and no state change,
so two consecutive successful calls return equal values. -/
theorem load_verbs_caching (s : FormsStore) :
    (s.verbs_cache = none → s.file = none →
      load_verbs s = .error ("Verb data file not found: " ++ s.data_path)) ∧
    (∀ v, s.verbs_cache = none → s.file = some v →
      load_verbs s =
        .ok (v, { s with verbs_cache := some v, reads := s.reads + 1 })) ∧
    (∀ v s2, load_verbs s = .ok (v, s2) →
      load_verbs s2 = .ok (v, s2) ∧ s2.reads ≤ s.reads + 1 ∧
        s2.verbs_cache = some v) := by
  refine ⟨?_, ?_, ?_⟩
  · intro hc hf
    simp only [load_verbs, hc, hf]
  · intro v hc hf
    simp only [load_verbs, hc, hf]
  · intro v s2 h
    cases hc : s.verbs_cache with
    | some v0 =>
      simp only [load_verbs, hc] at h
      obtain ⟨hv, hs⟩ := Prod.mk.injEq .. |>.mp (Except.ok.inj h)
      subst hv; subst hs
      exact ⟨by simp only [load_verbs, hc], by omega, hc⟩
    | none =>
      cases hf : s.file with
      | none =>
        simp only [load_verbs, hc, hf] at h
        exact absurd h (by simp)
      | some v0 =>
        simp only [load_verbs, hc, hf] at h
        obtain ⟨hv, hs⟩ := Prod.mk.injEq .. |>.mp (Except.ok.inj h)
        subst hv
        rw [← hs]
        exact ⟨by simp only [load_verbs], by dsimp only; omega, rfl⟩

/-- C8 witness: a fresh store over an existing file is read once and then
served from the cache; a fresh store over a missing file fails naming the
path. -/
theorem load_verbs_caching_witness :
    (load_verbs ⟨"data/verbs_forms.json", none, none, 0⟩ =
      .error ("Verb data file not found: " ++ "data/verbs_forms.json")) ∧
    (load_verbs ⟨"data/verbs_forms.json", some sampleVerbs, none, 0⟩ =
      .ok (sampleVerbs, ⟨"data/verbs_forms.json", some sampleVerbs,
        some sampleVerbs, 1⟩)) ∧
    (load_verbs ⟨"data/verbs_forms.json", some sampleVerbs,
        some sampleVerbs, 1⟩ =
      .ok (sampleVerbs, ⟨"data/verbs_forms.json", some sampleVerbs,
        some sampleVerbs, 1⟩) ∧
      (⟨"data/verbs_forms.json", some sampleVerbs, some sampleVerbs, 1⟩ :
        FormsStore).reads ≤
        (⟨"data/verbs_forms.json", some sampleVerbs, none, 0⟩ :
          FormsStore).reads + 1 ∧
      (⟨"data/verbs_forms.json", some sampleVerbs, some sampleVerbs, 1⟩ :
        FormsStore).verbs_cache = some sampleVerbs) :=
  ⟨(load_verbs_caching ⟨"data/verbs_forms.json", none, none, 0⟩).1 rfl rfl,
   (load_verbs_caching ⟨"data/verbs_forms.json", some sampleVerbs, none,
      0⟩).2.1 sampleVerbs rfl rfl,
   (load_verbs_caching ⟨"data/verbs_forms.json", some sampleVerbs, none,
      0⟩).2.2 sampleVerbs
     ⟨"data/verbs_forms.json", some sampleVerbs, some sampleVerbs, 1⟩
     (by decide)⟩

/-- C10: every per-verb record of a successful `grade_session` echoes the
submitted form strings verbatim (no trimming) in `user_answers`, and its
`all_correct` flag is true exactly when all three per-form booleans are. -/
theorem grade_session_results_echo (verbs : VerbTable)
    (answers : List AnswerInput) (res : SessionResult)
    (h : grade_session verbs answers = .ok res) :
    ∀ i (hi : i < res.results.length) (hi' : i < answers.length),
      (res.results.get ⟨i, hi⟩).user_answers =
        ⟨(answers.get ⟨i, hi'⟩).praesens, (answers.get ⟨i, hi'⟩).praeteritum,
         (answers.get ⟨i, hi'⟩).perfekt⟩ ∧
      ((res.results.get ⟨i, hi⟩).all_correct = true ↔
        ((res.results.get ⟨i, hi⟩).correct.praesens = true ∧
         (res.results.get ⟨i, hi⟩).correct.praeteritum = true ∧
         (res.results.get ⟨i, hi⟩).correct.perfekt = true)) := by
  obtain ⟨hne, rs, tc, hga, hres⟩ := grade_session_ok_inv verbs answers res h
  obtain ⟨hlen, hle, hpt⟩ := gradeAnswers_spec verbs answers rs tc hga
  subst hres
  dsimp only
  intro i hi hi'
  obtain ⟨h1, h2, h3⟩ := hpt i hi hi'
  refine ⟨h2, ?_⟩
  rw [h3]
  simp [Bool.and_eq_true, and_assoc]

/-- C10 witness: the echoed answers and flag at the concrete graded
one-verb session (submitted past form "wrong" is echoed verbatim and
`all_correct` is false). -/
theorem grade_session_results_echo_witness :
    (grade_session sampleVerbs sampleAnswers = .ok sampleGraded) ∧
    (∀ i (hi : i < sampleGraded.results.length)
        (hi' : i < sampleAnswers.length),
      (sampleGraded.results.get ⟨i, hi⟩).user_answers =
        ⟨(sampleAnswers.get ⟨i, hi'⟩).praesens,
         (sampleAnswers.get ⟨i, hi'⟩).praeteritum,
         (sampleAnswers.get ⟨i, hi'⟩).perfekt⟩ ∧
      ((sampleGraded.results.get ⟨i, hi⟩).all_correct = true ↔
        ((sampleGraded.results.get ⟨i, hi⟩).correct.praesens = true ∧
         (sampleGraded.results.get ⟨i, hi⟩).correct.praeteritum = true ∧
         (sampleGraded.results.get ⟨i, hi⟩).correct.perfekt = true))) :=
  ⟨by decide,
   grade_session_results_echo sampleVerbs sampleAnswers sampleGraded
     (by decide)⟩

end Verbformen
